import Mathlib

/-!
Shallow embedding of `torchelastic/distributed/app/api.py`, the role-based
RPC fan-out/gather layer, together with theorems settling the spec claims.

Modelling conventions:
* Python dicts are insertion-ordered association lists `List (String × β)`;
  `dictInsert` reproduces `d[k] = v` (overwrite in place, else append).
* A torch future that has reached a terminal state is a `Fut α`
  (`resolved` / `failed` / `timedOut`); `Fut.wait` is `fut.wait()`, which
  returns the value or raises the stored error.
* Python exceptions are the `Except PyErr` monad.
* The external `torch.distributed.rpc` collaborator (the Transport of the
  spec) is a `Transport` record passed explicitly: `rpc_async`,
  `remote` and `get_rpc_timeout` correspond to `torch_rpc.rpc_async`,
  `torch_rpc.remote` and `torch_rpc.get_rpc_timeout`; per the spec's
  interface (section 6) a dispatch returns a `PendingResult`, with
  per-destination failures surfaced inside it.
* `func`, `args`, `kwargs` are opaque and threaded through unchanged; they
  are type parameters `F A K`. Timeouts are abstracted as `Nat`.
-/

/-- `WorkerInfo` from the source: name, torch rpc id, global rank, role rank. -/
structure WorkerInfo where
  name : String
  id : Nat
  rank : Nat
  role_rank : Nat
deriving DecidableEq, Repr

/-- `RoleInfo` from the source. -/
structure RoleInfo where
  name : String
  role_world_size : Nat
  local_world_size : Nat
  worker_infos : List WorkerInfo
deriving DecidableEq, Repr

/-- A terminal-state pending result (torch future). `wait_all` blocks until
every entry is terminal, so the embedding works with terminal states. -/
inductive Fut (α : Type) where
  | resolved (v : α)
  | failed (err : String)
  | timedOut
deriving DecidableEq, Repr

/-- Python exceptions that the embedded code can raise. -/
inductive PyErr where
  /-- the error stored in a `Failed` future, re-raised by `wait()` -/
  | futFailed (err : String)
  /-- raised by `wait()` on a timed-out future -/
  | futTimedOut
  /-- e.g. a list object has no attribute `items` -/
  | attributeError (msg : String)
  /-- role never declared by any worker (spec error kind UnknownRole) -/
  | unknownRole (role : String)
deriving DecidableEq, Repr

/-- `fut.wait()`: return the resolved value or raise the failure. -/
def Fut.wait : Fut α → Except PyErr α
  | .resolved v => .ok v
  | .failed e => .error (.futFailed e)
  | .timedOut => .error .futTimedOut

/-- The argument of `wait_all`: either a dict keyed by worker name or a
plain sequence of futures. -/
inductive FutureSet (α : Type) where
  | dict (entries : List (String × Fut α))
  | seq (futs : List (Fut α))
deriving DecidableEq, Repr

/-- The realized collection `wait_all` returns: same shape as its input. -/
inductive Realized (α : Type) where
  | dict (entries : List (String × α))
  | seq (vals : List α)
deriving DecidableEq, Repr

/-- The dict branch of `wait_all`: `for name, fut in futures.items():
results[name] = fut.wait()` — the first `wait()` that raises propagates. -/
def waitDictEntries : List (String × Fut α) → Except PyErr (List (String × α))
  | [] => .ok []
  | (name, fut) :: rest => do
    let v ← fut.wait
    let rs ← waitDictEntries rest
    pure ((name, v) :: rs)

/-- `wait_all` from the source. The non-dict branch executes
`for fut in futures.items()`, and a sequence has no `items` attribute, so
it raises `AttributeError` before the first iteration. -/
def wait_all : FutureSet α → Except PyErr (Realized α)
  | .dict entries => (waitDictEntries entries).map .dict
  | .seq _ => .error (.attributeError "list object has no attribute items")

/-- `get_role_info` from the source: the body is a TODO placeholder that
returns `RoleInfo(name=role, role_world_size=0, local_world_size=0,
worker_infos=[])` for every role and never raises. -/
def get_role_info (role : String) : RoleInfo :=
  { name := role, role_world_size := 0, local_world_size := 0, worker_infos := [] }

/-- `get_worker_names` from the source:
`[info.name for info in get_role_info(role).worker_infos]`. -/
def get_worker_names (role : String) : List String :=
  (get_role_info role).worker_infos.map (fun info => info.name)

/-- `get_all_roles` from the source (TODO placeholder returning `[]`). -/
def get_all_roles : List String := []

/-- The external `torch.distributed.rpc` collaborator (Transport). -/
structure Transport (F A K α ρ : Type) where
  rpc_async : String → F → A → K → Nat → Fut α
  remote : String → F → A → K → ρ
  get_rpc_timeout : Nat

/-- Python `d[k] = v` on an insertion-ordered dict: overwrite in place if
the key is present, otherwise append at the end. -/
def dictInsert (d : List (String × β)) (k : String) (v : β) : List (String × β) :=
  if k ∈ d.map (fun p => p.1) then
    d.map (fun p => if p.1 = k then (k, v) else p)
  else
    d ++ [(k, v)]

/-- The keys of an insertion-ordered dict, in order. -/
def dictKeys (d : List (String × β)) : List String :=
  d.map (fun p => p.1)

/-- `d[k]` lookup: the first entry with key `k`, if any. -/
def dictGet : List (String × β) → String → Option β
  | [], _ => none
  | (k, v) :: rest, key => if k = key then some v else dictGet rest key

/-- The fan-out loop shared by `rpc_async_on_role` and `remote_on_role`:
`for name in names: d[name] = call(name)`, starting from dict `acc`. -/
def buildDictAux (call : String → β) (acc : List (String × β)) :
    List String → List (String × β)
  | [] => acc
  | n :: rest => buildDictAux call (dictInsert acc n (call n)) rest

/-- The fan-out loop starting from the empty dict `{}`. -/
def buildDict (call : String → β) (names : List String) : List (String × β) :=
  buildDictAux call [] names

/-- `rpc_async_on_role` from the source: resolve the timeout
(`torch_rpc.get_rpc_timeout()` when `None`), then
`for name in get_worker_names(role): futures[name] = torch_rpc.rpc_async(
name, func, args, kwargs, timeout)`. -/
def rpc_async_on_role (T : Transport F A K α ρ) (role : String)
    (func : F) (args : A) (kwargs : K) (timeout : Option Nat) :
    List (String × Fut α) :=
  let t := match timeout with
    | none => T.get_rpc_timeout
    | some u => u
  buildDict (fun name => T.rpc_async name func args kwargs t) (get_worker_names role)

/-- `rpc_sync_on_role` from the source:
`futs = rpc_async_on_role(role, func, args, kwargs, timeout);
return wait_all(futs)` (the dict branch of `wait_all`). -/
def rpc_sync_on_role (T : Transport F A K α ρ) (role : String)
    (func : F) (args : A) (kwargs : K) (timeout : Option Nat) :
    Except PyErr (Realized α) :=
  let futs := rpc_async_on_role T role func args kwargs timeout
  wait_all (.dict futs)

/-- `remote_on_role` from the source:
`for name in get_worker_names(role): rrefs[name] = torch_rpc.remote(
name, func, args, kwargs)`. -/
def remote_on_role (T : Transport F A K α ρ) (role : String)
    (func : F) (args : A) (kwargs : K) : List (String × ρ) :=
  buildDict (fun name => T.remote name func args kwargs) (get_worker_names role)

/-- Modelled from the spec: the process-wide RoleDirectory (section 4.1),
which `init_app` is meant to build and `get_role_info` is meant to consult.
Both are TODO placeholders in the source, so the directory itself is
missing from it: a mapping from role name to its RoleInfo. -/
structure RoleDirectory where
  roles : List (String × RoleInfo)

/-- Modelled from the spec: the intended `get_role_info`, whose body is a
TODO placeholder in the source; the spec says it returns the role's
RoleInfo and fails with UnknownRole if the role was never declared. -/
def get_role_info_model (dir : RoleDirectory) (role : String) :
    Except PyErr RoleInfo :=
  match dictGet dir.roles role with
  | some ri => .ok ri
  | none => .error (.unknownRole role)

/-- `get_worker_names` (the source's list comprehension) over the modelled
`get_role_info_model`; any UnknownRole failure propagates. -/
def get_worker_names_model (dir : RoleDirectory) (role : String) :
    Except PyErr (List String) :=
  match get_role_info_model dir role with
  | .ok ri => .ok (ri.worker_infos.map (fun info => info.name))
  | .error e => .error e

/-- The source's `rpc_async_on_role` loop run over the modelled directory:
identical timeout resolution and fan-out loop, with the UnknownRole
failure of the modelled `get_role_info_model` propagating. -/
def rpc_async_on_role_model (T : Transport F A K α ρ) (dir : RoleDirectory)
    (role : String) (func : F) (args : A) (kwargs : K) (timeout : Option Nat) :
    Except PyErr (List (String × Fut α)) :=
  match get_worker_names_model dir role with
  | .error e => .error e
  | .ok names =>
    let t := match timeout with
      | none => T.get_rpc_timeout
      | some u => u
    .ok (buildDict (fun name => T.rpc_async name func args kwargs t) names)

/-- The source's `remote_on_role` loop run over the modelled directory. -/
def remote_on_role_model (T : Transport F A K α ρ) (dir : RoleDirectory)
    (role : String) (func : F) (args : A) (kwargs : K) :
    Except PyErr (List (String × ρ)) :=
  match get_worker_names_model dir role with
  | .error e => .error e
  | .ok names => .ok (buildDict (fun name => T.remote name func args kwargs) names)

/-- Concrete fixture: a two-member trainer role. -/
def roleW : RoleInfo :=
  { name := "trainer", role_world_size := 2, local_world_size := 2,
    worker_infos := [{ name := "w0", id := 0, rank := 0, role_rank := 0 },
                     { name := "w1", id := 1, rank := 1, role_rank := 1 }] }

/-- Concrete fixture: a directory declaring only the trainer role. -/
def dirW : RoleDirectory := { roles := [("trainer", roleW)] }

/-- Concrete fixture transport: worker w1 is unreachable (its dispatch
yields an already-Failed future); every other worker echoes the timeout it
was called with; the transport-level default timeout is 60. -/
def transW : Transport Unit Unit Unit Nat Unit :=
  { rpc_async := fun name _ _ _ t =>
      if name = "w1" then .failed "unreachable" else .resolved t
    remote := fun _ _ _ _ => ()
    get_rpc_timeout := 60 }

/-! ## Dictionary and fan-out loop lemmas -/

theorem dictInsert_of_not_mem {β : Type} (d : List (String × β)) (k : String)
    (v : β) (h : k ∉ dictKeys d) : dictInsert d k v = d ++ [(k, v)] := by
  simp only [dictKeys] at h
  simp [dictInsert, h]

theorem dictKeys_append {β : Type} (d e : List (String × β)) :
    dictKeys (d ++ e) = dictKeys d ++ dictKeys e := by
  simp [dictKeys]

theorem mem_dictKeys_dictInsert_self {β : Type} (d : List (String × β))
    (k : String) (v : β) : k ∈ dictKeys (dictInsert d k v) := by
  by_cases h : k ∈ dictKeys d
  · simp only [dictKeys] at h ⊢
    simp only [dictInsert, if_pos h, List.map_map]
    obtain ⟨p, hp, hpk⟩ := List.mem_map.mp h
    refine List.mem_map.mpr ⟨p, hp, ?_⟩
    simp [Function.comp, hpk]
  · rw [dictInsert_of_not_mem d k v h, dictKeys_append]
    simp [dictKeys]

theorem mem_dictKeys_dictInsert_of_mem {β : Type} {d : List (String × β)}
    {a : String} (k : String) (v : β) (h : a ∈ dictKeys d) :
    a ∈ dictKeys (dictInsert d k v) := by
  by_cases hk : k ∈ dictKeys d
  · simp only [dictKeys] at h hk ⊢
    simp only [dictInsert, if_pos hk, List.map_map]
    obtain ⟨p, hp, hpa⟩ := List.mem_map.mp h
    subst hpa
    refine List.mem_map.mpr ⟨p, hp, ?_⟩
    by_cases hpk : p.1 = k <;> simp [Function.comp, hpk]
  · rw [dictInsert_of_not_mem d k v hk, dictKeys_append]
    exact List.mem_append.mpr (Or.inl h)

theorem dictInsert_values {β : Type} (d : List (String × β)) (k : String)
    (call : String → β) (h : ∀ p ∈ d, p.2 = call p.1) :
    ∀ p ∈ dictInsert d k (call k), p.2 = call p.1 := by
  intro p hp
  by_cases hk : k ∈ dictKeys d
  · simp only [dictKeys] at hk
    simp only [dictInsert, if_pos hk] at hp
    obtain ⟨q, hq, hqp⟩ := List.mem_map.mp hp
    by_cases hqk : q.1 = k
    · rw [if_pos hqk] at hqp
      rw [← hqp]
    · rw [if_neg hqk] at hqp
      rw [← hqp]
      exact h q hq
  · rw [dictInsert_of_not_mem d k (call k) hk] at hp
    rcases List.mem_append.mp hp with h1 | h1
    · exact h p h1
    · simp only [List.mem_singleton] at h1
      rw [h1]

theorem buildDictAux_values {β : Type} (call : String → β) :
    ∀ (names : List String) (acc : List (String × β)),
      (∀ p ∈ acc, p.2 = call p.1) →
      ∀ p ∈ buildDictAux call acc names, p.2 = call p.1
  | [], _, hacc => hacc
  | n :: rest, acc, hacc =>
    buildDictAux_values call rest (dictInsert acc n (call n))
      (dictInsert_values acc n call hacc)

theorem mem_dictKeys_buildDictAux {β : Type} (call : String → β) :
    ∀ (names : List String) (acc : List (String × β)) (a : String),
      a ∈ names ∨ a ∈ dictKeys acc → a ∈ dictKeys (buildDictAux call acc names)
  | [], _, _, h => h.elim (fun h => absurd h (List.not_mem_nil _)) id
  | n :: rest, acc, a, h => by
    rcases h with h | h
    · rcases List.mem_cons.mp h with h | h
      · exact mem_dictKeys_buildDictAux call rest _ a
          (Or.inr (h ▸ mem_dictKeys_dictInsert_self acc n (call n)))
      · exact mem_dictKeys_buildDictAux call rest _ a (Or.inl h)
    · exact mem_dictKeys_buildDictAux call rest _ a
        (Or.inr (mem_dictKeys_dictInsert_of_mem n (call n) h))

theorem buildDictAux_keys {β : Type} (call : String → β) :
    ∀ (names : List String) (acc : List (String × β)), names.Nodup →
      (∀ n ∈ names, n ∉ dictKeys acc) →
      dictKeys (buildDictAux call acc names) = dictKeys acc ++ names
  | [], acc, _, _ => by simp [buildDictAux]
  | n :: rest, acc, hnd, hdisj => by
    have hn : n ∉ dictKeys acc := hdisj n (List.mem_cons_self n rest)
    show dictKeys (buildDictAux call (dictInsert acc n (call n)) rest) = _
    rw [dictInsert_of_not_mem acc n (call n) hn]
    have hnd' := (List.nodup_cons.mp hnd).2
    have hndn := (List.nodup_cons.mp hnd).1
    have hdisj' : ∀ m ∈ rest, m ∉ dictKeys (acc ++ [(n, call n)]) := by
      intro m hm
      rw [dictKeys_append]
      intro hmem
      rcases List.mem_append.mp hmem with h1 | h1
      · exact hdisj m (List.mem_cons_of_mem n hm) h1
      · simp only [dictKeys, List.map_cons, List.map_nil, List.mem_singleton] at h1
        exact hndn (h1 ▸ hm)
    rw [buildDictAux_keys call rest (acc ++ [(n, call n)]) hnd' hdisj',
      dictKeys_append]
    simp [dictKeys]

theorem dictGet_mem {β : Type} :
    ∀ (d : List (String × β)) (a : String), a ∈ dictKeys d →
      ∃ v, dictGet d a = some v ∧ (a, v) ∈ d
  | [], a, h => by simp [dictKeys] at h
  | (k, v) :: rest, a, h => by
    by_cases hk : k = a
    · exact ⟨v, by simp [dictGet, hk], by rw [← hk]; exact List.mem_cons_self _ _⟩
    · have h' : a ∈ dictKeys rest := by
        simp only [dictKeys, List.map_cons, List.mem_cons] at h
        rcases h with h | h
        · exact absurd h.symm hk
        · exact h
      obtain ⟨w, hw, hmem⟩ := dictGet_mem rest a h'
      exact ⟨w, by simp [dictGet, hk, hw], List.mem_cons_of_mem _ hmem⟩

theorem buildDict_keys {β : Type} (call : String → β) (names : List String)
    (hnd : names.Nodup) : dictKeys (buildDict call names) = names := by
  have h := buildDictAux_keys call names [] hnd (by intro n _ h; simp [dictKeys] at h)
  simpa [buildDict, dictKeys] using h

theorem buildDict_get {β : Type} (call : String → β) (names : List String)
    (a : String) (h : a ∈ names) : dictGet (buildDict call names) a = some (call a) := by
  have hmem : a ∈ dictKeys (buildDict call names) :=
    mem_dictKeys_buildDictAux call names [] a (Or.inl h)
  obtain ⟨v, hv, hin⟩ := dictGet_mem (buildDict call names) a hmem
  have hval : v = call a :=
    buildDictAux_values call names [] (by intro p hp; simp at hp) (a, v) hin
  rw [hv, hval]

/-! ## Claim theorems -/

/-- Claim C1: the spec claims `wait_all` fails with a composite error
enumerating every failed key with its individual cause, also reporting the
Resolved values of the batch. The source instead re-raises the first
failure alone: on a dict whose entries are w0 Failed, w1 TimedOut and
w2 Resolved 42, it raises only w0's cause, dropping w1's cause and w2's
value. This evaluates the embedded code at that input. -/
theorem C1_wait_all_first_failure_only :
    wait_all (FutureSet.dict
      [("w0", Fut.failed "connection refused"), ("w1", Fut.timedOut),
       ("w2", Fut.resolved (42 : Nat))])
      = Except.error (PyErr.futFailed "connection refused") := rfl

/-- Claim C2: the spec claims `wait_all` preserves the input's shape when
every entry resolves (mapping in, mapping out; sequence in, sequence out).
The dict branch does (second conjunct), but the sequence branch runs
`for fut in futures.items()` on a list, which has no `items` attribute, so
even an all-resolved sequence raises AttributeError (first conjunct). -/
theorem C2_wait_all_seq_branch_broken :
    wait_all (FutureSet.seq [Fut.resolved (42 : Nat)])
      = Except.error (PyErr.attributeError "list object has no attribute items") ∧
    wait_all (FutureSet.dict [("w0", Fut.resolved (1 : Nat)), ("w1", Fut.resolved 2)])
      = Except.ok (Realized.dict [("w0", 1), ("w1", 2)]) := ⟨rfl, rfl⟩

/-- Claim C3: when the Transport cannot dispatch to a member (its
`rpc_async` yields an already-Failed pending result, per the spec's
Transport interface), the fan-out `rpc_async_on_role` still returns
normally, with that member's entry present and already Failed; the
fan-out never fails as a whole. Stated over the spec-modelled role
directory, since the source's `get_role_info` is a TODO placeholder. -/
theorem C3_dispatch_failure_is_local {F A K α ρ : Type}
    (T : Transport F A K α ρ) (dir : RoleDirectory) (role : String)
    (func : F) (args : A) (kwargs : K) (tOpt : Option Nat)
    (names : List String) (name : String) (err : String)
    (hnames : get_worker_names_model dir role = .ok names)
    (hmem : name ∈ names)
    (hfail : T.rpc_async name func args kwargs (tOpt.getD T.get_rpc_timeout)
      = .failed err) :
    ∃ futs, rpc_async_on_role_model T dir role func args kwargs tOpt = .ok futs ∧
      dictGet futs name = some (Fut.failed err) := by
  cases tOpt with
  | none =>
    rw [Option.getD_none] at hfail
    refine ⟨buildDict (fun n => T.rpc_async n func args kwargs T.get_rpc_timeout)
      names, ?_, ?_⟩
    · unfold rpc_async_on_role_model
      rw [hnames]
    · rw [buildDict_get _ names name hmem, hfail]
  | some u =>
    rw [Option.getD_some] at hfail
    refine ⟨buildDict (fun n => T.rpc_async n func args kwargs u) names, ?_, ?_⟩
    · unfold rpc_async_on_role_model
      rw [hnames]
    · rw [buildDict_get _ names name hmem, hfail]

/-- Claim C3 witness: against the concrete directory and transport, where
w1 is unreachable, the fan-out on role trainer returns normally with the
w1 entry already Failed. -/
theorem C3_dispatch_failure_is_local_witness :
    ∃ futs, rpc_async_on_role_model transW dirW "trainer" () () () none = .ok futs ∧
      dictGet futs "w1" = some (Fut.failed "unreachable") :=
  C3_dispatch_failure_is_local transW dirW "trainer" () () () none
    ["w0", "w1"] "w1" "unreachable" rfl (by simp) rfl

/-- Claim C4: the spec claims `get_role_info` fails with UnknownRole for a
role never declared, and that a fan-out against it fails synchronously
with UnknownRole. The source's `get_role_info` is a TODO placeholder that
never raises: for the undeclared role "ghost" it returns an empty
RoleInfo, and `rpc_async_on_role` consequently returns an empty dict
instead of raising. This evaluates the embedded code at that input. -/
theorem C4_unknown_role_not_raised :
    get_role_info "ghost"
      = { name := "ghost", role_world_size := 0, local_world_size := 0,
          worker_infos := [] } ∧
    rpc_async_on_role transW "ghost" () () () none = [] := ⟨rfl, rfl⟩

/-- Claim C5: the FutureSet returned by the fan-out has exactly one entry
per member of the role, keyed by exactly the members' global names at call
time (in role order). Stated over the spec-modelled role directory, since
the source's `get_role_info` is a TODO placeholder; the fan-out loop is
the source's. -/
theorem C5_fanout_key_set {F A K α ρ : Type} (T : Transport F A K α ρ)
    (dir : RoleDirectory) (role : String) (func : F) (args : A) (kwargs : K)
    (tOpt : Option Nat) (ri : RoleInfo)
    (hri : get_role_info_model dir role = .ok ri)
    (hnd : (ri.worker_infos.map (fun info => info.name)).Nodup) :
    ∃ futs, rpc_async_on_role_model T dir role func args kwargs tOpt = .ok futs ∧
      dictKeys futs = ri.worker_infos.map (fun info => info.name) := by
  have hnames : get_worker_names_model dir role
      = .ok (ri.worker_infos.map (fun info => info.name)) := by
    unfold get_worker_names_model
    rw [hri]
  refine ⟨buildDict (fun n => T.rpc_async n func args kwargs
    (match tOpt with | none => T.get_rpc_timeout | some u => u))
    (ri.worker_infos.map (fun info => info.name)), ?_, ?_⟩
  · unfold rpc_async_on_role_model
    rw [hnames]
  · exact buildDict_keys _ _ hnd

/-- Claim C5 witness: on the concrete trainer role the fan-out produces a
FutureSet keyed exactly by the two member names. -/
theorem C5_fanout_key_set_witness :
    ∃ futs, rpc_async_on_role_model transW dirW "trainer" () () () (some 10)
      = .ok futs ∧
      dictKeys futs = roleW.worker_infos.map (fun info => info.name) :=
  C5_fanout_key_set transW dirW "trainer" () () () (some 10) roleW rfl (by decide)

/-- Claim C6: `rpc_sync_on_role` is exactly `wait_all` applied to the
FutureSet produced by `rpc_async_on_role` with the same inputs; in the
source it is literally defined that way, so the equation holds
definitionally (no duplicated dispatch logic). -/
theorem C6_sync_is_wait_all_of_async {F A K α ρ : Type}
    (T : Transport F A K α ρ) (role : String) (func : F) (args : A)
    (kwargs : K) (timeout : Option Nat) :
    rpc_sync_on_role T role func args kwargs timeout
      = wait_all (.dict (rpc_async_on_role T role func args kwargs timeout)) := rfl

/-- Claim C7: a fan-out issued without a timeout uses the Transport's
explicit default (`get_rpc_timeout`) for every per-member call — the
no-timeout call equals the call with the default passed explicitly — and
a caller-supplied timeout is handed unchanged to every member call: every
entry of the resulting FutureSet is exactly the Transport's response to
its own name with that timeout. Stated over the spec-modelled role
directory, since the source's `get_role_info` is a TODO placeholder. -/
theorem C7_timeout_resolution {F A K α ρ : Type} (T : Transport F A K α ρ)
    (dir : RoleDirectory) (role : String) (func : F) (args : A) (kwargs : K)
    (t : Nat) (futs : List (String × Fut α))
    (hok : rpc_async_on_role_model T dir role func args kwargs (some t) = .ok futs) :
    rpc_async_on_role_model T dir role func args kwargs none
      = rpc_async_on_role_model T dir role func args kwargs (some T.get_rpc_timeout) ∧
    ∀ p ∈ futs, p.2 = T.rpc_async p.1 func args kwargs t := by
  constructor
  · unfold rpc_async_on_role_model
    cases h : get_worker_names_model dir role with
    | error e => rfl
    | ok names => rfl
  · intro p hp
    unfold rpc_async_on_role_model at hok
    cases h : get_worker_names_model dir role with
    | error e =>
      rw [h] at hok
      exact Except.noConfusion hok
    | ok names =>
      rw [h] at hok
      have hfuts : buildDict (fun n => T.rpc_async n func args kwargs t) names
          = futs := Except.ok.inj hok
      rw [← hfuts] at hp
      exact buildDictAux_values _ names [] (by intro q hq; simp at hq) p hp

/-- Claim C7 witness: on the concrete directory and transport, the
no-timeout fan-out equals the fan-out with the default timeout passed
explicitly, and with timeout 5 the w0 entry is exactly the transport's
response to w0 with timeout 5. -/
theorem C7_timeout_resolution_witness :
    rpc_async_on_role_model transW dirW "trainer" () () () none
      = rpc_async_on_role_model transW dirW "trainer" () () ()
          (some transW.get_rpc_timeout) ∧
    (Fut.resolved 5 : Fut Nat) = transW.rpc_async "w0" () () () 5 := by
  have h := C7_timeout_resolution transW dirW "trainer" () () () 5
    [("w0", Fut.resolved 5), ("w1", Fut.failed "unreachable")] rfl
  exact ⟨h.1, h.2 ("w0", Fut.resolved 5) (by simp)⟩

/-- Claim C8: `get_role_info` is idempotent — two calls with the same role
in the same run return value-equal RoleInfo snapshots. In the source the
body reads no mutable state at all: it returns the fixed empty RoleInfo
determined by the role name alone, so any two calls agree. -/
theorem C8_get_role_info_idempotent (role : String) :
    get_role_info role = get_role_info role ∧
    get_role_info role
      = { name := role, role_world_size := 0, local_world_size := 0,
          worker_infos := [] } := ⟨rfl, rfl⟩

/-- Claim C9: the mapping returned by `remote_on_role` and the FutureSet
returned by `rpc_async_on_role` have the same key set: both fan-out loops
key their result by exactly the worker names reported for the role.
Stated over the spec-modelled role directory, since the source's
`get_role_info` is a TODO placeholder; both loops are the source's. -/
theorem C9_remote_keys_match_async {F A K α ρ : Type}
    (T : Transport F A K α ρ) (dir : RoleDirectory) (role : String)
    (func : F) (args : A) (kwargs : K) (tOpt : Option Nat)
    (names : List String)
    (hnames : get_worker_names_model dir role = .ok names)
    (hnd : names.Nodup) :
    ∃ futs rrefs,
      rpc_async_on_role_model T dir role func args kwargs tOpt = .ok futs ∧
      remote_on_role_model T dir role func args kwargs = .ok rrefs ∧
      dictKeys rrefs = dictKeys futs ∧ dictKeys futs = names := by
  refine ⟨buildDict (fun n => T.rpc_async n func args kwargs
      (match tOpt with | none => T.get_rpc_timeout | some u => u)) names,
    buildDict (fun n => T.remote n func args kwargs) names, ?_, ?_, ?_, ?_⟩
  · unfold rpc_async_on_role_model
    rw [hnames]
  · unfold remote_on_role_model
    rw [hnames]
  · rw [buildDict_keys _ _ hnd, buildDict_keys _ _ hnd]
  · exact buildDict_keys _ _ hnd

/-- Claim C9 witness: on the concrete trainer role, both fan-outs return
dicts keyed exactly by the two member names. -/
theorem C9_remote_keys_match_async_witness :
    ∃ futs rrefs,
      rpc_async_on_role_model transW dirW "trainer" () () () none = .ok futs ∧
      remote_on_role_model transW dirW "trainer" () () () = .ok rrefs ∧
      dictKeys rrefs = dictKeys futs ∧ dictKeys futs = ["w0", "w1"] :=
  C9_remote_keys_match_async transW dirW "trainer" () () () none
    ["w0", "w1"] rfl (by decide)

/-- Claim C10: `wait_all` applied to an empty keyed mapping takes the dict
branch, runs the loop zero times, and returns an empty mapping without
raising any error. -/
theorem C10_wait_all_empty_dict :
    wait_all (FutureSet.dict ([] : List (String × Fut Nat)))
      = Except.ok (Realized.dict []) := rfl
